import Mathlib

/-!
Verification of the ThaiDash dashboard's preprocessing pipeline
(`src/preprocessing.py`): the distance extractor, the field normalizers
and category classifiers, the cleaning pipeline `clean_event_data`, the
KPI aggregator `calculate_kpis`, and the top-category ranker
`get_top_categories`.

Modelling conventions (shallow embedding):
* Python strings are Lean `String`s.  `str.upper()` / `str.lower()` /
  `str.strip()` are modelled on the ASCII range (`pyUpperChar`,
  `pyLowerChar`, `pyStrip`); the inputs the pipeline distinguishes
  (its keyword tables and category labels) are ASCII or caseless Thai, so
  this matches CPython's behaviour on every case the code branches on.
* Python floats are modelled as exact rationals (`Rat`).  The numeric
  formatting done by `extract_distance` (`str(int(f))` / `str(f)`) is
  modelled as exact decimal formatting, including CPython's switch to
  scientific notation (`str(1e-05) = "1e-05"`) for magnitudes below
  `1e-4`; decimal literals are taken exactly rather than rounded to
  binary64.
* A pandas `DataFrame` is a `Schema` (which columns exist) plus a list of
  rows; a cell that pandas would hold as `NaN`/`NaT` is an `Option` that
  is `none`.  `pd.to_numeric(errors='coerce')` is pre-applied in the
  model: a raw `ticketTypePrice` cell is already `Option Rat`.
* `df.attrs` is the `Attrs` structure carried inside `CleanedDF`.
* Code paths that raise Python exceptions (`KeyError` from
  `drop_duplicates` on a missing fallback key column, the `NameError`
  on `top_category` in `calculate_kpis`, `NaT.strftime`) are modelled
  with `Except String`.
-/

namespace ThaiDash

/-! ### ASCII string helpers (models of Python `str` methods) -/

/-- Model of CPython `str.upper()` on one character, restricted to the
ASCII range (all cased characters the pipeline matches on are ASCII). -/
def pyUpperChar (c : Char) : Char :=
  if 'a' ≤ c ∧ c ≤ 'z' then Char.ofNat (c.toNat - 32) else c

/-- Model of CPython `str.lower()` on one character (ASCII range). -/
def pyLowerChar (c : Char) : Char :=
  if 'A' ≤ c ∧ c ≤ 'Z' then Char.ofNat (c.toNat + 32) else c

/-- `s.upper()`. -/
def pyUpper (s : String) : String := ⟨s.data.map pyUpperChar⟩

/-- `s.lower()`. -/
def pyLower (s : String) : String := ⟨s.data.map pyLowerChar⟩

/-- `listLeads l p` : `p` is an initial segment of `l`
(used to model Python's `in` substring test). -/
def listLeads : List Char → List Char → Bool
  | _, [] => true
  | [], _ :: _ => false
  | c :: cs, d :: ds => c == d && listLeads cs ds

/-- `needle in hay` on char lists. -/
def listHasSub (hay needle : List Char) : Bool :=
  match hay with
  | [] => needle.isEmpty
  | _ :: t => listLeads hay needle || listHasSub t needle

/-- Python's `needle in hay` substring containment. -/
def strHasSub (hay needle : String) : Bool := listHasSub hay.data needle.data

/-- Characters stripped by `str.strip()` (ASCII whitespace; Python also
strips some non-ASCII Unicode spaces, which never occur in the
dictionary keys or labels the pipeline compares against). -/
def isStripSpace (c : Char) : Bool :=
  c == ' ' || c == '\t' || c == '\n' || c == '\r' || c == '\x0b' || c == '\x0c'

/-- `s.strip()`. -/
def pyStrip (s : String) : String :=
  ⟨((s.data.dropWhile isStripSpace).reverse.dropWhile isStripSpace).reverse⟩

/-! ### The distance extractor `extract_distance`

The source searches the uppercased label with the regex
`(\d+\.?\d*)\s*(K|KM)` (its second pattern `(\d+)\s*(K|KM)` matches a
subset of the first and can never fire, so it is not modelled
separately), then formats `float(group(1))` — dropping a trailing `.0`
via `int` when the value is integral — and falls back to a keyword
chain.  The scan below is the regex's leftmost match: at each start
position take the maximal run of digits, an optional dot, a maximal run
of digits, optional whitespace, then require `K`; for this pattern
greedy matching with backtracking and maximal-munch agree, because after
a maximal `\d*` the next character is not a digit, so giving characters
back can never reach `K`. -/

/-- `\d` (ASCII decimal digit; the model restricts `\d` to ASCII). -/
def isDig (c : Char) : Bool := '0' ≤ c && c ≤ '9'

/-- `\s` (whitespace as matched by the regex). -/
def isPySpace (c : Char) : Bool :=
  c == ' ' || c == '\t' || c == '\n' || c == '\r' || c == '\x0b' || c == '\x0c'

/-- Split a char list into its maximal digit run and the rest. -/
def scanDigits : List Char → List Char × List Char
  | [] => ([], [])
  | c :: cs =>
    if isDig c then
      let p := scanDigits cs
      (c :: p.1, p.2)
    else ([], c :: cs)

/-- Consume one optional `.` (the regex's `\.?`). -/
def dotSplit : List Char → List Char
  | '.' :: t => t
  | r => r

/-- Does the list start with the required `K` (of `K|KM`)?
Only group 1 is used by the source, so the optional `M` is irrelevant. -/
def kHead : List Char → Bool
  | 'K' :: _ => true
  | _ => false

/-- Try to match `(\d+\.?\d*)\s*(K|KM)` at the start of `cs`; returns the
integer-part and fraction-part digit runs of group 1.  (A group such as
`"5."` and the group `"5"` have the same `float` value, so only the two
digit runs are kept.) -/
def tryNumK (cs : List Char) : Option (List Char × List Char) :=
  if (scanDigits cs).1 = [] then none
  else if kHead ((scanDigits (dotSplit (scanDigits cs).2)).2.dropWhile isPySpace)
  then some ((scanDigits cs).1, (scanDigits (dotSplit (scanDigits cs).2)).1)
  else none

/-- `re.search`: leftmost position where the pattern matches. -/
def findNumK : List Char → Option (List Char × List Char)
  | [] => none
  | c :: cs =>
    match tryNumK (c :: cs) with
    | some r => some r
    | none => findNumK cs

/-- Drop leading `'0'` characters, keeping a single `'0'` if nothing is
left (the effect of `str(int(...))` on a digit string, exactly). -/
def stripZerosL (l : List Char) : List Char :=
  match l.dropWhile (· == '0') with
  | [] => ['0']
  | r => r

/-- Drop trailing `'0'` characters (canonical fraction digits). -/
def stripZerosR (l : List Char) : List Char :=
  (l.reverse.dropWhile (· == '0')).reverse

/-- Number of leading `'0'` characters. -/
def zCount (l : List Char) : Nat := (l.takeWhile (· == '0')).length

/-- CPython `str(f)` for a float `0 < f < 1e-4` whose fraction digits
(after the leading zeros) are `fp` stripped of trailing zeros: a
short mantissa followed by `e-` and a two-or-more-digit exponent,
e.g. `str(1e-05) = "1e-05"`, `str(1.2e-05) = "1.2e-05"`. -/
def sciL (fp : List Char) : List Char :=
  let z := zCount fp
  let mant := fp.drop z
  let mantL :=
    match mant with
    | [] => ['0']
    | [d] => [d]
    | d :: rest => d :: '.' :: rest
  let e := z + 1
  mantL ++ ('e' :: '-' :: (if e < 10 then '0' :: (toString e).data else (toString e).data))

/-- The body of the source's formatting step, producing the final
result string (as a char list): `float(num)`; if integral,
`str(int(...))`, else `str(float)`; then append `"K"`. -/
def formatNumL (ip fp : List Char) : List Char :=
  if fp.all (· == '0') then
    stripZerosL ip ++ ['K']
  else
    let ic := stripZerosL ip
    let fc := stripZerosR fp
    if ic = ['0'] ∧ 4 ≤ zCount fc then
      sciL fc ++ ['K']
    else
      ic ++ ('.' :: (fc ++ ['K']))

/-- The keyword fallback chain of `extract_distance`, verbatim from the
source (note the `'MARATHON' in ticket_str` test comes first, so the
two later branches mentioning `HALF` together with `MARATHON` are
unreachable). -/
def keywordFallback (u : String) : String :=
  if strHasSub u "MARATHON" then "42.2K"
  else if strHasSub u "HALF" && strHasSub u "MARATHON" then "21.1K"
  else if strHasSub u "HALF" then "21.1K"
  else if strHasSub u "FULL" && strHasSub u "MARATHON" then "42.2K"
  else if strHasSub u "24K" || strHasSub u "24 KM" then "24K"
  else if strHasSub u "21K" || strHasSub u "21.1K" || strHasSub u "HALF" then "21.1K"
  else if strHasSub u "10K" then "10K"
  else if strHasSub u "5K" then "5K"
  else if strHasSub u "3K" then "3K"
  else "Other"

/-- `extract_distance(ticket_name)`; `none` models a `NaN` cell. -/
def extract_distance (ticket_name : Option String) : String :=
  match ticket_name with
  | none => "Other"
  | some s =>
    let u := pyUpper s
    match findNumK u.data with
    | some (ip, fp) => ⟨formatNumL ip fp⟩
    | none => keywordFallback u

example : extract_distance (some "Fun Run 5K") = "5K" := by decide
example : extract_distance (some "VIP Ticket") = "Other" := by decide
example : extract_distance (some "21.1K Half") = "21.1K" := by decide
example : extract_distance (some "Bangkok Full Marathon") = "42.2K" := by decide
example : extract_distance (some "Half Marathon") = "42.2K" := by decide
example : extract_distance (some "10 km run") = "10K" := by decide
example : extract_distance (some "5.0K") = "5K" := by decide
example : extract_distance (some "0.00001K") = "1e-05K" := by decide
example : extract_distance (some "1e-05K") = "5K" := by decide

/-! ### Field normalizers and category classifiers -/

/-- `categorize_price` (defined inside the price section of
`clean_event_data`); `none` models a `NaN` argument. -/
def categorize_price (p : Option Rat) : String :=
  match p with
  | none => "Unknown"
  | some price =>
    if price = 0 then "Free"
    else if price ≤ 400 then "Budget (≤400฿)"
    else if price ≤ 600 then "Economy (401-600฿)"
    else if price ≤ 900 then "Standard (601-900฿)"
    else if price ≤ 1200 then "Premium (901-1200฿)"
    else "VIP (>1200฿)"

/-- The price-tier cell the pipeline actually derives for a raw
`ticketTypePrice` cell: prices are coerced and `fillna(0)`-filled
*before* `categorize_price` is applied, so the function never sees a
null. -/
def pipe_price_tier (cell : Option Rat) : String :=
  categorize_price (some (cell.getD 0))

/-- The fixed multilingual `gender_mapping` dictionary, verbatim. -/
def gender_mapping : List (String × String) :=
  [("male", "Male"), ("m", "Male"),
   ("female", "Female"), ("f", "Female"),
   ("ชาย", "Male"), ("หญิง", "Female"),
   ("unknown", "LGBTQ"), ("other", "LGBTQ"),
   ("lgbtq", "LGBTQ"), ("lgbt", "LGBTQ"), ("lgbtq+", "LGBTQ"),
   ("queer", "LGBTQ"), ("non-binary", "LGBTQ"), ("nb", "LGBTQ"),
   ("genderqueer", "LGBTQ"), ("transgender", "LGBTQ"), ("trans", "LGBTQ")]

/-- Gender normalization:
`astype(str).str.lower().str.strip()` then `.map(gender_mapping).fillna('LGBTQ')`. -/
def normalize_gender (s : String) : String :=
  (List.lookup (pyStrip (pyLower s)) gender_mapping).getD "LGBTQ"

/-- `extract_event_category` (defined inside `clean_event_data`),
first-match-wins keyword chain over the lower-cased event name. -/
def extract_event_category (event_name : String) : String :=
  let n := pyLower event_name
  if strHasSub n "สุขเต็มสิบ" then "สุขเต็มสิบ"
  else if strHasSub n "marathon" && !strHasSub n "half" && !strHasSub n "mini" then "Marathon"
  else if strHasSub n "half" then "Half Marathon"
  else if strHasSub n "mini" then "Mini Marathon"
  else if strHasSub n "10k" || strHasSub n "10 km" then "10K"
  else if strHasSub n "5k" || strHasSub n "5 km" then "5K"
  else if strHasSub n "fun run" then "Fun Run"
  else if strHasSub n "trail" then "Trail Run"
  else if strHasSub n "charity" then "Charity Run"
  else "Other"

/-- Age derivation: `(now - birthDate).days / 365.25`, kept as an `int`
only inside `[0, 120]`, else null.  Timestamps are rationals counting
days; sub-day truncation of `.dt.days` is absorbed into the `today`
parameter (no claim depends on the exact value). -/
def pyAge (today : Rat) (bd : Option Rat) : Option Int :=
  match bd with
  | none => none
  | some b =>
    let x : Rat := (today - b) / (1461 / 4 : Rat)
    if 0 ≤ x ∧ x ≤ 120 then some ⌊x⌋ else none

/-- `get_age_group` (defined inside `clean_event_data`). -/
def get_age_group (a : Option Int) : String :=
  match a with
  | none => "Unknown"
  | some age =>
    if age < 18 then "<18"
    else if age < 25 then "18-24"
    else if age < 35 then "25-34"
    else if age < 45 then "35-44"
    else if age < 55 then "45-54"
    else "55+"

/-- The fixed ordered domain of `distance_category`
(the `pd.Categorical` cast; values outside it collapse to `NaN`). -/
def distance_order : List String := ["5K", "10K", "21.1K", "42.2K", "Other"]

/-- The `distance_category` cell for a raw `ticketTypeName` cell. -/
def pipe_distance_category (tn : Option String) : Option String :=
  let d := extract_distance tn
  if d ∈ distance_order then some d else none

/-! ### The data model -/

/-- Which of the columns the pipeline looks at exist in the input frame. -/
structure Schema where
  hasID : Bool
  hasEventName : Bool
  hasTicketTypeName : Bool
  hasTicketTypePrice : Bool
  hasGender : Bool
  hasBirthDate : Bool
  hasRegisterDate : Bool
deriving Repr, DecidableEq

/-- One raw registration row.  A field of a column absent from the
schema is never read.  `ticketTypePrice` is the cell after
`pd.to_numeric(errors='coerce')` (`none` = unparsable/missing);
`birthDate`/`registerDate` are the cells after `pd.to_datetime(errors=
'coerce')` as day counts (`none` = `NaT`); `pid` is the `ID` cell. -/
structure Row where
  pid : String
  eventName : String
  ticketTypeName : Option String
  ticketTypePrice : Option Rat
  gender : String
  birthDate : Option Rat
  registerDate : Option Rat
deriving Repr, DecidableEq

/-- A raw input frame. -/
structure RawDF where
  schema : Schema
  rows : List Row

/-- One cleaned row: the normalized base fields plus the derived
feature cells.  A derived field is only meaningful when the schema says
its source column exists (the model's stand-in for column presence). -/
structure CRow where
  pid : String
  eventName : String
  ticketTypeName : Option String
  price : Option Rat
  price_tier : String
  gender : String
  birthDate : Option Rat
  age : Option Int
  age_group : String
  event_category : String
  distance_category : Option String
  registerDate : Option Rat
deriving Repr, DecidableEq

/-- The whole-population metrics snapshot stored in `df.attrs`.
`top_events_all` is `some` exactly when the source sets the attribute
(`len(top_events_all) > 0`); its head is `top_event_name` /
`top_event_count`. -/
structure Attrs where
  total_registrations : Nat
  unique_participants : Nat
  total_revenue : Rat
  avg_price_per_registration : Rat
  unique_events_all : Nat
  top_events_all : Option (List (String × Nat))
deriving Repr, DecidableEq

/-- The pipeline's output: deduplicated cleaned rows plus attributes. -/
structure CleanedDF where
  schema : Schema
  rows : List CRow
  attrs : Attrs
deriving Repr, DecidableEq

/-! ### Generic list machinery (first-occurrence dedup, value counts) -/

/-- Keep the first row for each key not already in `seen`
(`drop_duplicates(subset=..., keep='first')`). -/
def dedupFirstBy {α κ : Type} [DecidableEq κ] (key : α → κ) :
    List α → List κ → List α
  | [], _ => []
  | a :: as, seen =>
    if key a ∈ seen then dedupFirstBy key as seen
    else a :: dedupFirstBy key as (key a :: seen)

/-- First-occurrence deduplication of a whole list. -/
def dedupFirst {α κ : Type} [DecidableEq κ] (key : α → κ) (l : List α) : List α :=
  dedupFirstBy key l []

/-- Stable insertion keeping counts in descending order. -/
def insertByCount (p : String × Nat) : List (String × Nat) → List (String × Nat)
  | [] => [p]
  | q :: qs => if q.2 < p.2 then p :: q :: qs else q :: insertByCount p qs

/-- Stable sort of (label, count) pairs by descending count. -/
def sortPairs (l : List (String × Nat)) : List (String × Nat) :=
  l.foldl (fun acc p => insertByCount p acc) []

/-- `Series.value_counts()`: distinct values in first-appearance order,
paired with their multiplicities, sorted by descending count (ties kept
in first-appearance order; pandas leaves tie order unspecified and no
claim depends on it). -/
def value_counts (l : List String) : List (String × Nat) :=
  sortPairs ((dedupFirst (fun x => x) l).map (fun v => (v, l.count v)))

/-! ### The cleaning pipeline `clean_event_data` -/

/-- Cleaning/feature-engineering of one row (steps 1-3 and 5-8 of the
source; date-part features of step 2 are not individually modelled, no
claim touches them). -/
def cleanRow (today : Rat) (sch : Schema) (r : Row) : CRow :=
  let ev := if sch.hasEventName then pyStrip r.eventName else r.eventName
  let age := pyAge today r.birthDate
  { pid := r.pid
    eventName := ev
    ticketTypeName := r.ticketTypeName
    price := if sch.hasTicketTypePrice then some (r.ticketTypePrice.getD 0)
             else r.ticketTypePrice
    price_tier := pipe_price_tier r.ticketTypePrice
    gender := normalize_gender r.gender
    birthDate := r.birthDate
    age := age
    age_group := get_age_group age
    event_category := extract_event_category ev
    distance_category := pipe_distance_category r.ticketTypeName
    registerDate := r.registerDate }

/-- Step 4 of the source: the whole-population metrics, computed from
the original data (whose `eventName` the source has also stripped and
whose prices it has also coerced and zero-filled before this point). -/
def snapshotOf (df : RawDF) : Attrs :=
  let n := df.rows.length
  let uniq :=
    if df.schema.hasID then (dedupFirst (fun x => x) (df.rows.map (·.pid))).length
    else n
  let rev : Rat :=
    if df.schema.hasTicketTypePrice then
      (df.rows.map (fun r => r.ticketTypePrice.getD 0)).sum
    else 0
  let avg : Rat :=
    if df.schema.hasTicketTypePrice then (if 0 < n then rev / (n : Rat) else 0)
    else 0
  let names := df.rows.map (fun r => pyStrip r.eventName)
  let uevents :=
    if df.schema.hasEventName then (dedupFirst (fun x => x) names).length else 0
  let tops :=
    if df.schema.hasEventName then (value_counts names).take 10 else []
  { total_registrations := n
    unique_participants := uniq
    total_revenue := rev
    avg_price_per_registration := avg
    unique_events_all := uevents
    top_events_all := if 0 < tops.length then some tops else none }

/-- The composite fallback key of step 9 when there is no `ID` column:
`eventName` and `registerDate` always, `gender` / `birthDate` when those
columns exist (a component of an absent optional column is `none`). -/
def fallbackKey (sch : Schema) (c : CRow) :
    String × Option Rat × Option String × Option (Option Rat) :=
  (c.eventName, c.registerDate,
   if sch.hasGender then some c.gender else none,
   if sch.hasBirthDate then some c.birthDate else none)

/-- `clean_event_data(df)` (with today's timestamp made explicit).
When there is no `ID` column the source calls
`drop_duplicates(subset=['eventName', 'registerDate', ...])`
unconditionally, which raises `KeyError` if either of those columns is
absent — modelled as the error case. -/
def clean_event_data (today : Rat) (df : RawDF) : Except String CleanedDF :=
  let sch := df.schema
  let cleaned := df.rows.map (cleanRow today sch)
  if sch.hasID then
    .ok { schema := sch
          rows := dedupFirst (fun c => c.pid) cleaned
          attrs := snapshotOf df }
  else if sch.hasEventName && sch.hasRegisterDate then
    .ok { schema := sch
          rows := dedupFirst (fallbackKey sch) cleaned
          attrs := snapshotOf df }
  else
    .error "KeyError: fallback deduplication key column is missing"

/-! ### The KPI aggregator `calculate_kpis` -/

/-- The flat KPI mapping; an `Option` field is `none` when the source
would not put the key in the dictionary.  (`avg_age`/`median_age`
collapse pandas `NaN` to `none`; no claim reads them.) -/
structure Kpis where
  total_registrations : Nat
  total_participants : Nat
  total_revenue : Rat
  avg_ticket_price : Rat
  unique_events : Nat
  top_event : Option String
  top_event_count : Option Nat
  top_events_dict : Option (List (String × Nat))
  median_ticket_price : Option Rat
  male_participants : Option Nat
  female_participants : Option Nat
  lgbtq_participants : Option Nat
  avg_age : Option Rat
  median_age : Option Rat
  participants_with_age : Option Nat
  top_event_category : Option String
  top_distance_category : Option String
  earliest_registration : Option Rat
  latest_registration : Option Rat
  male_percentage : Option Rat
  female_percentage : Option Rat
  lgbtq_percentage : Option Rat
  age_known_percentage : Option Rat
deriving Repr, DecidableEq

/-- Ascending insertion for rationals (for the median). -/
def insLe (x : Rat) : List Rat → List Rat
  | [] => [x]
  | y :: ys => if x ≤ y then x :: y :: ys else y :: insLe x ys

/-- Insertion sort of rationals. -/
def sortRat (l : List Rat) : List Rat := l.foldr insLe []

/-- `Series.median()` (`none` = `NaN` on an empty series). -/
def ratMedian (l : List Rat) : Option Rat :=
  let s := sortRat l
  let n := s.length
  if n = 0 then none
  else if n % 2 = 1 then s.get? (n / 2)
  else do
    let a ← s.get? (n / 2 - 1)
    let b ← s.get? (n / 2)
    pure ((a + b) / 2)

/-- `Series.mean()` (`none` = `NaN` on an empty series). -/
def ratMean (l : List Rat) : Option Rat :=
  if l.length = 0 then none else some (l.sum / (l.length : Rat))

/-- Smallest element (`Series.min()` after dropping nulls). -/
def minR : List Rat → Option Rat
  | [] => none
  | x :: xs => some (match minR xs with | none => x | some m => min x m)

/-- Largest element (`Series.max()` after dropping nulls). -/
def maxR : List Rat → Option Rat
  | [] => none
  | x :: xs => some (match maxR xs with | none => x | some m => max x m)

/-- `Series.mode()[0]`: a most frequent value (`none` when the mode
series is empty).  Ties: the model returns the first-appearing maximum;
pandas returns the smallest — no claim reads a mode value. -/
def listMode (l : List String) : Option String :=
  ((value_counts l).head?).map (·.1)

/-- The record part of `calculate_kpis` (everything except the raised
exceptions).  Field by field this follows sections 1-4 of the source. -/
def mkKpis (c : CleanedDF) : Kpis :=
  let sch := c.schema
  let a := c.attrs
  let genders := c.rows.map (·.gender)
  let ages : List Rat := (c.rows.filterMap (·.age)).map (fun i => (i : Rat))
  let dists := c.rows.filterMap (·.distance_category)
  let dates := c.rows.filterMap (·.registerDate)
  let total := a.unique_participants
  let maleCnt := if sch.hasGender then some (genders.count "Male") else none
  let femaleCnt := if sch.hasGender then some (genders.count "Female") else none
  let lgbtqCnt := if sch.hasGender then some (genders.count "LGBTQ") else none
  let withAge := if sch.hasBirthDate then some ((c.rows.filterMap (·.age)).length) else none
  let pct (cnt : Option Nat) : Option Rat :=
    if 0 < total then cnt.map (fun m => (m : Rat) / (total : Rat) * 100) else none
  { total_registrations := a.total_registrations
    total_participants := total
    total_revenue := a.total_revenue
    avg_ticket_price := a.avg_price_per_registration
    unique_events := a.unique_events_all
    top_event := a.top_events_all.bind (fun l => l.head?.map (·.1))
    top_event_count := a.top_events_all.bind (fun l => l.head?.map (·.2))
    top_events_dict := a.top_events_all
    median_ticket_price :=
      if sch.hasTicketTypePrice then ratMedian (c.rows.map (fun r => r.price.getD 0))
      else some 0
    male_participants := maleCnt
    female_participants := femaleCnt
    lgbtq_participants := lgbtqCnt
    avg_age := if sch.hasBirthDate then ratMean ages else none
    median_age := if sch.hasBirthDate then ratMedian ages else none
    participants_with_age := withAge
    top_event_category :=
      if sch.hasEventName then some ((listMode (c.rows.map (·.eventName))).getD "N/A")
      else none
    top_distance_category :=
      if sch.hasTicketTypeName && sch.hasEventName then
        some (if c.rows.isEmpty then "N/A" else (listMode dists).getD "N/A")
      else none
    earliest_registration := if sch.hasRegisterDate then minR dates else none
    latest_registration := if sch.hasRegisterDate then maxR dates else none
    male_percentage := pct maleCnt
    female_percentage := pct femaleCnt
    lgbtq_percentage := pct lgbtqCnt
    age_known_percentage := pct withAge }

/-- `calculate_kpis(df)`.  The three exception paths of the source, in
evaluation order: the `top_distance_category` line reads the local
variable `top_category`, which is only assigned when `event_category`
exists (`NameError` otherwise), and indexes `top_distance[0]`, which
raises when the distance mode is empty while the event mode is not;
the date block calls `.strftime` on the `NaT` min of an all-null
`registerDate` column. -/
def calculate_kpis (c : CleanedDF) : Except String Kpis :=
  let sch := c.schema
  let dists := c.rows.filterMap (·.distance_category)
  let dates := c.rows.filterMap (·.registerDate)
  if sch.hasTicketTypeName && !sch.hasEventName then
    .error "NameError: name 'top_category' is not defined"
  else if sch.hasTicketTypeName && sch.hasEventName && !c.rows.isEmpty
      && dists.isEmpty then
    .error "KeyError: 0"
  else if sch.hasRegisterDate && dates.isEmpty then
    .error "ValueError: NaTType does not support strftime"
  else
    .ok (mkKpis c)

/-! ### The top-category ranker `get_top_categories` -/

/-- The string cells of a column of the cleaned frame, `none` when the
column does not exist; null cells are dropped, as `value_counts` does. -/
def colStrings (c : CleanedDF) (column : String) : Option (List String) :=
  if column = "ID" then
    if c.schema.hasID then some (c.rows.map (·.pid)) else none
  else if column = "eventName" then
    if c.schema.hasEventName then some (c.rows.map (·.eventName)) else none
  else if column = "ticketTypeName" then
    if c.schema.hasTicketTypeName then some (c.rows.filterMap (·.ticketTypeName)) else none
  else if column = "gender" then
    if c.schema.hasGender then some (c.rows.map (·.gender)) else none
  else if column = "price_tier" then
    if c.schema.hasTicketTypePrice then some (c.rows.map (·.price_tier)) else none
  else if column = "event_category" then
    if c.schema.hasEventName then some (c.rows.map (·.event_category)) else none
  else if column = "distance_category" then
    if c.schema.hasTicketTypeName then some (c.rows.filterMap (·.distance_category)) else none
  else if column = "age_group" then
    if c.schema.hasBirthDate then some (c.rows.map (·.age_group)) else none
  else none

/-- `get_top_categories(df, column, n)`: empty for a missing column;
the stored whole-population top events for `eventName` (when the
attribute exists); otherwise the top-`n` value counts of the
deduplicated data. -/
def get_top_categories (c : CleanedDF) (column : String) (n : Nat) :
    List (String × Nat) :=
  match colStrings c column with
  | none => []
  | some cells =>
    if column = "eventName" then
      match c.attrs.top_events_all with
      | some tops => tops.take n
      | none => (value_counts cells).take n
    else (value_counts cells).take n

/-! ### Properties of first-occurrence deduplication -/

section Dedup

variable {α κ : Type} [DecidableEq κ] (key : α → κ)

theorem mem_of_mem_dedupFirstBy :
    ∀ {l : List α} {seen : List κ} {x : α},
      x ∈ dedupFirstBy key l seen → x ∈ l := by
  intro l
  induction l with
  | nil => intro seen x h; simp [dedupFirstBy] at h
  | cons a as ih =>
    intro seen x h
    rw [dedupFirstBy] at h
    split at h
    · exact List.mem_cons_of_mem _ (ih h)
    · rcases List.mem_cons.mp h with h | h
      · exact h ▸ List.mem_cons_self _ _
      · exact List.mem_cons_of_mem _ (ih h)

theorem key_not_seen_of_mem_dedupFirstBy :
    ∀ {l : List α} {seen : List κ} {x : α},
      x ∈ dedupFirstBy key l seen → key x ∉ seen := by
  intro l
  induction l with
  | nil => intro seen x h; simp [dedupFirstBy] at h
  | cons a as ih =>
    intro seen x h
    rw [dedupFirstBy] at h
    split at h
    · exact ih h
    · rcases List.mem_cons.mp h with h | h
      · subst h; assumption
      · intro hmem
        exact ih h (List.mem_cons_of_mem _ hmem)

theorem keys_nodup_dedupFirstBy :
    ∀ (l : List α) (seen : List κ),
      ((dedupFirstBy key l seen).map key).Nodup := by
  intro l
  induction l with
  | nil => intro seen; simp [dedupFirstBy]
  | cons a as ih =>
    intro seen
    rw [dedupFirstBy]
    split
    · exact ih seen
    · rw [List.map_cons, List.nodup_cons]
      refine ⟨?_, ih _⟩
      intro hmem
      obtain ⟨x, hx, hkx⟩ := List.mem_map.mp hmem
      exact key_not_seen_of_mem_dedupFirstBy key hx
        (hkx ▸ List.mem_cons_self _ _)

theorem find?_of_mem_dedupFirstBy :
    ∀ {l : List α} {seen : List κ} {x : α},
      x ∈ dedupFirstBy key l seen →
        l.find? (fun y => key y == key x) = some x := by
  intro l
  induction l with
  | nil => intro seen x h; simp [dedupFirstBy] at h
  | cons a as ih =>
    intro seen x h
    rw [dedupFirstBy] at h
    split at h
    · rename_i hseen
      have hnot := key_not_seen_of_mem_dedupFirstBy key h
      have hfind := ih h
      rw [List.find?_cons]
      have : (key a == key x) = false := by
        apply beq_false_of_ne
        intro hc
        exact hnot (hc ▸ hseen)
      rw [this]
      exact hfind
    · rcases List.mem_cons.mp h with h | h
      · subst h
        rw [List.find?_cons]
        simp
      · have hnot := key_not_seen_of_mem_dedupFirstBy key h
        have hfind := ih h
        rw [List.find?_cons]
        have : (key a == key x) = false := by
          apply beq_false_of_ne
          intro hc
          exact hnot (hc ▸ List.mem_cons_self _ _)
        rw [this]
        exact hfind

theorem exists_mem_dedupFirstBy :
    ∀ {l : List α} {seen : List κ} {y : α},
      y ∈ l → key y ∉ seen →
        ∃ x ∈ dedupFirstBy key l seen, key x = key y := by
  intro l
  induction l with
  | nil => intro seen y h; simp at h
  | cons a as ih =>
    intro seen y hy hns
    rw [dedupFirstBy]
    split
    · rename_i hseen
      rcases List.mem_cons.mp hy with h | h
      · exact absurd (h ▸ hseen) hns
      · exact ih h hns
    · rename_i hseen
      by_cases hk : key y = key a
      · exact ⟨a, List.mem_cons_self _ _, hk.symm⟩
      · rcases List.mem_cons.mp hy with h | h
        · exact absurd (congrArg key h) hk
        · obtain ⟨x, hx, hkx⟩ := ih h (by
            intro hmem
            rcases List.mem_cons.mp hmem with hm | hm
            · exact hk hm
            · exact hns hm)
          exact ⟨x, List.mem_cons_of_mem _ hx, hkx⟩

theorem dedupFirst_id_nodup (l : List κ) : (dedupFirst (fun x => x) l).Nodup := by
  have h := keys_nodup_dedupFirstBy (fun x : κ => x) l []
  simpa using h

theorem dedupFirst_id_toFinset (l : List κ) :
    (dedupFirst (fun x => x) l).toFinset = l.toFinset := by
  ext a
  simp only [List.mem_toFinset]
  constructor
  · exact fun h => mem_of_mem_dedupFirstBy _ h
  · intro h
    obtain ⟨x, hx, hkx⟩ :=
      exists_mem_dedupFirstBy (fun x : κ => x) h
        (show a ∉ ([] : List κ) by simp)
    exact hkx ▸ hx

theorem dedupFirst_id_length (l : List κ) :
    (dedupFirst (fun x => x) l).length = l.toFinset.card := by
  rw [← dedupFirst_id_toFinset l,
    List.toFinset_card_of_nodup (dedupFirst_id_nodup l)]

theorem dedupFirst_cons (a : α) (as : List α) :
    dedupFirst key (a :: as) = a :: dedupFirstBy key as [key a] := by
  rw [dedupFirst, dedupFirstBy]
  simp

end Dedup

/-! ### Properties of the descending count sort and `value_counts` -/

/-- Counts weakly decrease along the list. -/
def CountsDesc (l : List (String × Nat)) : Prop :=
  l.Pairwise (fun a b => b.2 ≤ a.2)

theorem mem_insertByCount {p x : String × Nat} :
    ∀ {l : List (String × Nat)}, x ∈ insertByCount p l ↔ x = p ∨ x ∈ l := by
  intro l
  induction l with
  | nil => simp [insertByCount]
  | cons q qs ih =>
    rw [insertByCount]
    split
    · simp [List.mem_cons]
    · simp only [List.mem_cons, ih]
      tauto

theorem countsDesc_insertByCount {p : String × Nat} :
    ∀ {l : List (String × Nat)}, CountsDesc l → CountsDesc (insertByCount p l) := by
  intro l
  induction l with
  | nil => intro _; simp [insertByCount, CountsDesc]
  | cons q qs ih =>
    intro h
    obtain ⟨hq, hqs⟩ := List.pairwise_cons.mp h
    rw [insertByCount]
    split
    · rename_i hlt
      refine List.pairwise_cons.mpr ⟨?_, h⟩
      intro x hx
      rcases List.mem_cons.mp hx with hx | hx
      · exact hx ▸ le_of_lt hlt
      · exact le_trans (hq x hx) (le_of_lt hlt)
    · rename_i hge
      refine List.pairwise_cons.mpr ⟨?_, ih hqs⟩
      intro x hx
      rcases mem_insertByCount.mp hx with hx | hx
      · subst hx; omega
      · exact hq x hx

theorem length_insertByCount (p : String × Nat) :
    ∀ (l : List (String × Nat)), (insertByCount p l).length = l.length + 1 := by
  intro l
  induction l with
  | nil => rfl
  | cons q qs ih =>
    rw [insertByCount]
    split
    · simp
    · simp [ih]

theorem sortPairs_go (l acc : List (String × Nat)) :
    CountsDesc acc →
      CountsDesc (l.foldl (fun acc p => insertByCount p acc) acc)
      ∧ (l.foldl (fun acc p => insertByCount p acc) acc).length
          = acc.length + l.length
      ∧ ∀ x, x ∈ l.foldl (fun acc p => insertByCount p acc) acc ↔
          x ∈ acc ∨ x ∈ l := by
  induction l generalizing acc with
  | nil => intro h; simpa using h
  | cons a as ih =>
    intro h
    obtain ⟨h1, h2, h3⟩ := ih (insertByCount a acc) (countsDesc_insertByCount h)
    refine ⟨h1, ?_, ?_⟩
    · have hlen := length_insertByCount a acc
      rw [List.foldl_cons, h2, List.length_cons]
      omega
    · intro x
      rw [List.foldl_cons, h3 x, mem_insertByCount]
      simp only [List.mem_cons]
      tauto

theorem countsDesc_sortPairs (l : List (String × Nat)) : CountsDesc (sortPairs l) :=
  (sortPairs_go l [] (by simp [CountsDesc])).1

theorem length_sortPairs (l : List (String × Nat)) :
    (sortPairs l).length = l.length := by
  have h := (sortPairs_go l [] (by simp [CountsDesc])).2.1
  simpa [sortPairs] using h

theorem mem_sortPairs {x : String × Nat} (l : List (String × Nat)) :
    x ∈ sortPairs l ↔ x ∈ l := by
  have h := (sortPairs_go l [] (by simp [CountsDesc])).2.2 x
  simpa [sortPairs] using h

theorem value_counts_count {l : List String} {p : String × Nat}
    (h : p ∈ value_counts l) : p.2 = l.count p.1 := by
  rw [value_counts, mem_sortPairs] at h
  obtain ⟨v, _, hv⟩ := List.mem_map.mp h
  rw [← hv]

theorem countsDesc_value_counts (l : List String) : CountsDesc (value_counts l) :=
  countsDesc_sortPairs _

theorem countsDesc_take {l : List (String × Nat)} (h : CountsDesc l) (n : Nat) :
    CountsDesc (l.take n) :=
  List.Pairwise.sublist (List.take_sublist n l) h

theorem value_counts_eq_nil {l : List String} :
    value_counts l = [] ↔ l = [] := by
  constructor
  · intro h
    cases l with
    | nil => rfl
    | cons a as =>
      exfalso
      have hlen : (value_counts (a :: as)).length
          = ((dedupFirst (fun x => x) (a :: as)).map
              (fun v => (v, (a :: as).count v))).length := length_sortPairs _
      rw [h] at hlen
      rw [List.length_map, dedupFirst_cons] at hlen
      simp at hlen
  · intro h; subst h; rfl

/-! ### Inversion lemmas for the pipeline and the KPI aggregator -/

theorem clean_ok {today : Rat} {df : RawDF} {c : CleanedDF}
    (h : clean_event_data today df = .ok c) :
    c.schema = df.schema ∧ c.attrs = snapshotOf df ∧
      ((df.schema.hasID = true ∧
          c.rows = dedupFirst (fun r => r.pid)
            (df.rows.map (cleanRow today df.schema)))
       ∨ (df.schema.hasID = false ∧
          c.rows = dedupFirst (fallbackKey df.schema)
            (df.rows.map (cleanRow today df.schema)))) := by
  rw [clean_event_data] at h
  split_ifs at h with h1 h2
  · cases h
    exact ⟨rfl, rfl, Or.inl ⟨h1, rfl⟩⟩
  · cases h
    exact ⟨rfl, rfl, Or.inr ⟨Bool.eq_false_iff.mpr h1, rfl⟩⟩

theorem calc_ok {c : CleanedDF} {k : Kpis}
    (h : calculate_kpis c = .ok k) : k = mkKpis c := by
  rw [calculate_kpis] at h
  split_ifs at h
  cases h
  rfl

/-- The derived `pid` of a cleaned row is the raw row's `ID` cell. -/
theorem cleanRow_pid (today : Rat) (sch : Schema) (r : Row) :
    (cleanRow today sch r).pid = r.pid := rfl

/-! ### Shared concrete input for the witnesses -/

/-- A small frame with every column, a repeated participant `"a"`,
a null price, multilingual genders and a repeated event name. -/
def dfW : RawDF :=
  ⟨⟨true, true, true, true, true, true, true⟩,
   [⟨"a", "Fun Run", some "5K", some 400, "M", none, some 10⟩,
    ⟨"b", "Big Marathon", some "Half Marathon", none, "หญิง", none, some 11⟩,
    ⟨"a", "Fun Run", some "10K", some 100, "x", none, some 12⟩]⟩

/-- The cleaned frame the pipeline produces for `dfW`. -/
def cleanW : CleanedDF :=
  (clean_event_data 0 dfW).toOption.getD
    ⟨⟨false, false, false, false, false, false, false⟩, [], ⟨0, 0, 0, 0, 0, none⟩⟩

/-! ### The claims -/

/-- Claim C1: the whole-population metrics attached by `clean_event_data`
equal aggregates computed directly on the untouched raw input —
`total_registrations` is the raw row count, `total_revenue` the sum of
the numeric-coerced ticket prices with nulls filled to 0,
`unique_participants` the number of distinct `ID` values — and
`calculate_kpis` reports exactly these attached values for
`total_registrations`, `total_participants`, `total_revenue`,
`avg_ticket_price` and `unique_events`, never recomputing them from the
deduplicated dataset. -/
theorem snapshot_and_kpis_from_raw (today : Rat) (df : RawDF) (c : CleanedDF)
    (h : clean_event_data today df = .ok c) :
    c.attrs.total_registrations = df.rows.length
    ∧ (df.schema.hasTicketTypePrice = true →
        c.attrs.total_revenue
          = (df.rows.map (fun r => r.ticketTypePrice.getD 0)).sum)
    ∧ (df.schema.hasID = true →
        c.attrs.unique_participants = (df.rows.map (·.pid)).toFinset.card)
    ∧ ∀ k, calculate_kpis c = .ok k →
        k.total_registrations = c.attrs.total_registrations
        ∧ k.total_participants = c.attrs.unique_participants
        ∧ k.total_revenue = c.attrs.total_revenue
        ∧ k.avg_ticket_price = c.attrs.avg_price_per_registration
        ∧ k.unique_events = c.attrs.unique_events_all := by
  obtain ⟨-, hattrs, -⟩ := clean_ok h
  refine ⟨?_, ?_, ?_, ?_⟩
  · rw [hattrs]; rfl
  · intro hp
    rw [hattrs]
    simp [snapshotOf, hp]
  · intro hid
    rw [hattrs]
    simp only [snapshotOf, hid, if_true]
    exact dedupFirst_id_length _
  · intro k hk
    rw [calc_ok hk]
    exact ⟨rfl, rfl, rfl, rfl, rfl⟩

/-- Claim C1, witness at `dfW`. -/
theorem snapshot_and_kpis_from_raw_witness :
    clean_event_data 0 dfW = Except.ok cleanW
    ∧ cleanW.attrs.total_revenue
        = (dfW.rows.map (fun r => r.ticketTypePrice.getD 0)).sum
    ∧ cleanW.attrs.unique_participants = (dfW.rows.map (·.pid)).toFinset.card
    ∧ (mkKpis cleanW).total_revenue = cleanW.attrs.total_revenue :=
  ⟨rfl,
   (snapshot_and_kpis_from_raw 0 dfW cleanW rfl).2.1 rfl,
   (snapshot_and_kpis_from_raw 0 dfW cleanW rfl).2.2.1 rfl,
   ((snapshot_and_kpis_from_raw 0 dfW cleanW rfl).2.2.2 (mkKpis cleanW) rfl).2.2.1⟩

/-- Claim C5: for an input with an `ID` column, the dataset returned by
`clean_event_data` has exactly one row per distinct `ID` value (the kept
identifiers are pairwise distinct and every input identifier is
represented), and the row kept for each `ID` is the cleaned form of the
first row with that `ID` in the original input order. -/
theorem dedup_keeps_first_row_per_id (today : Rat) (df : RawDF) (c : CleanedDF)
    (hid : df.schema.hasID = true)
    (h : clean_event_data today df = .ok c) :
    (c.rows.map (·.pid)).Nodup
    ∧ (∀ cr ∈ c.rows, ∃ r, df.rows.find? (fun y => y.pid == cr.pid) = some r
        ∧ cr = cleanRow today df.schema r)
    ∧ (∀ r ∈ df.rows, ∃ cr ∈ c.rows, cr.pid = r.pid) := by
  obtain ⟨-, -, hrows | hrows⟩ := clean_ok h
  · obtain ⟨-, hrows⟩ := hrows
    refine ⟨?_, ?_, ?_⟩
    · rw [hrows]
      exact keys_nodup_dedupFirstBy _ _ _
    · intro cr hcr
      rw [hrows] at hcr
      have hfind := find?_of_mem_dedupFirstBy (fun r : CRow => r.pid) hcr
      rw [List.find?_map] at hfind
      obtain ⟨r, hr, hcl⟩ := Option.map_eq_some'.mp hfind
      exact ⟨r, hr, hcl.symm⟩
    · intro r hr
      rw [hrows]
      obtain ⟨cr, hcr, hk⟩ :=
        exists_mem_dedupFirstBy (fun c : CRow => c.pid)
          (List.mem_map_of_mem (cleanRow today df.schema) hr)
          (show (cleanRow today df.schema r).pid ∉ ([] : List String) by simp)
      exact ⟨cr, hcr, hk⟩
  · exact absurd hid (by simp [hrows.1])

/-- Claim C5, witness at `dfW`. -/
theorem dedup_keeps_first_row_per_id_witness :
    clean_event_data 0 dfW = Except.ok cleanW
    ∧ (cleanW.rows.map (·.pid)).Nodup :=
  ⟨rfl, (dedup_keeps_first_row_per_id 0 dfW cleanW rfl rfl).1⟩

/-- Claim C8: when the total-participants indicator is zero,
`calculate_kpis` emits no percentage keys at all, and when it is
positive each emitted percentage equals the corresponding participant
count divided by total participants times 100 (a percentage key is
present exactly when its count key is). -/
theorem percentage_emission_guard (c : CleanedDF) (k : Kpis)
    (hk : calculate_kpis c = .ok k) :
    (k.total_participants = 0 →
      k.male_percentage = none ∧ k.female_percentage = none
      ∧ k.lgbtq_percentage = none ∧ k.age_known_percentage = none)
    ∧ (0 < k.total_participants →
      k.male_percentage = k.male_participants.map
          (fun m => (m : Rat) / (k.total_participants : Rat) * 100)
      ∧ k.female_percentage = k.female_participants.map
          (fun m => (m : Rat) / (k.total_participants : Rat) * 100)
      ∧ k.lgbtq_percentage = k.lgbtq_participants.map
          (fun m => (m : Rat) / (k.total_participants : Rat) * 100)
      ∧ k.age_known_percentage = k.participants_with_age.map
          (fun m => (m : Rat) / (k.total_participants : Rat) * 100)) := by
  rw [calc_ok hk]
  constructor
  · intro h0
    have h0' : c.attrs.unique_participants = 0 := h0
    simp [mkKpis, h0']
  · intro hpos
    have hpos' : 0 < c.attrs.unique_participants := hpos
    simp [mkKpis, hpos']

/-- Claim C8, witness at `cleanW` (total participants is 2 there). -/
theorem percentage_emission_guard_witness :
    calculate_kpis cleanW = Except.ok (mkKpis cleanW)
    ∧ (mkKpis cleanW).male_percentage = (mkKpis cleanW).male_participants.map
        (fun m => (m : Rat) / ((mkKpis cleanW).total_participants : Rat) * 100) :=
  ⟨rfl, ((percentage_emission_guard cleanW (mkKpis cleanW) rfl).2 (by decide)).1⟩

/-- Claim C4: for a cleaned dataset with an attached snapshot,
`get_top_categories(df, 'eventName', n)` ranks events by the snapshot's
whole-population registration counts — each returned count is the
event's multiplicity in the raw (pre-deduplication) rows — while for
any other column the ranking is the top-`n` value counts of the
deduplicated dataset, in descending count order. -/
theorem top_categories_ranking_sources (today : Rat) (df : RawDF)
    (c : CleanedDF) (n : Nat)
    (h : clean_event_data today df = .ok c)
    (he : df.schema.hasEventName = true) :
    get_top_categories c "eventName" n
      = ((value_counts (df.rows.map (fun r => pyStrip r.eventName))).take 10).take n
    ∧ (∀ p ∈ get_top_categories c "eventName" n,
        p.2 = (df.rows.map (fun r => pyStrip r.eventName)).count p.1)
    ∧ CountsDesc (get_top_categories c "eventName" n)
    ∧ ∀ column cells, column ≠ "eventName" → colStrings c column = some cells →
        get_top_categories c column n = (value_counts cells).take n
        ∧ CountsDesc (get_top_categories c column n)
        ∧ ∀ p ∈ get_top_categories c column n, p.2 = cells.count p.1 := by
  obtain ⟨hsch, hattrs, hrows⟩ := clean_ok h
  have hmain : get_top_categories c "eventName" n
      = ((value_counts (df.rows.map (fun r => pyStrip r.eventName))).take 10).take n := by
    rw [get_top_categories]
    have hcol : colStrings c "eventName" = some (c.rows.map (·.eventName)) := by
      simp [colStrings, hsch, he]
    rw [hcol]
    simp only [if_pos rfl]
    rw [hattrs]
    simp only [snapshotOf, he, if_true]
    by_cases hlen :
        0 < ((value_counts (df.rows.map fun r => pyStrip r.eventName)).take 10).length
    · rw [if_pos hlen]
    · rw [if_neg hlen]
      have h0 : ((value_counts (df.rows.map fun r => pyStrip r.eventName)).take 10) = [] :=
        List.length_eq_zero.mp (by omega)
      rw [h0]
      have hvc : value_counts (df.rows.map fun r => pyStrip r.eventName) = [] := by
        rcases List.take_eq_nil_iff.mp h0 with h | h
        · exact absurd h (by norm_num)
        · exact h
      have hnil : df.rows = [] := by
        have := value_counts_eq_nil.mp hvc
        exact List.map_eq_nil_iff.mp this
      have hcrows : c.rows = [] := by
        rcases hrows with ⟨-, hr⟩ | ⟨-, hr⟩ <;>
          simp [hr, hnil, dedupFirst, dedupFirstBy]
      simp [hcrows, value_counts_eq_nil.mpr, value_counts, dedupFirst,
        dedupFirstBy, sortPairs]
  refine ⟨hmain, ?_, ?_, ?_⟩
  · intro p hp
    rw [hmain] at hp
    have hp' : p ∈ value_counts (df.rows.map fun r => pyStrip r.eventName) :=
      List.take_subset _ _ (List.take_subset _ _ hp)
    exact value_counts_count hp'
  · rw [hmain]
    exact countsDesc_take (countsDesc_take (countsDesc_value_counts _) 10) n
  · intro column cells hne hcol
    have hbranch : get_top_categories c column n = (value_counts cells).take n := by
      rw [get_top_categories, hcol]
      simp only [if_neg hne]
    refine ⟨hbranch, ?_, ?_⟩
    · rw [hbranch]
      exact countsDesc_take (countsDesc_value_counts _) n
    · intro p hp
      rw [hbranch] at hp
      exact value_counts_count (List.take_subset _ _ hp)

/-- Claim C4, witness at `dfW`. -/
theorem top_categories_ranking_sources_witness :
    clean_event_data 0 dfW = Except.ok cleanW
    ∧ get_top_categories cleanW "eventName" 5
        = ((value_counts (dfW.rows.map (fun r => pyStrip r.eventName))).take 10).take 5 :=
  ⟨rfl, (top_categories_ranking_sources 0 dfW cleanW 5 rfl rfl).1⟩

/-- Claim C10: `get_top_categories(df, 'eventName', n)` on a pipeline
output returns at most 10 rows, whatever `n` and however many distinct
events the input contained, because the attached snapshot stores only
the ten highest-count events. -/
theorem top_events_at_most_ten (today : Rat) (df : RawDF) (c : CleanedDF)
    (h : clean_event_data today df = .ok c) (n : Nat) :
    (get_top_categories c "eventName" n).length ≤ 10 := by
  obtain ⟨hsch, hattrs, hrows⟩ := clean_ok h
  by_cases he : df.schema.hasEventName = true
  · rw [get_top_categories]
    have hcol : colStrings c "eventName" = some (c.rows.map (·.eventName)) := by
      simp [colStrings, hsch, he]
    rw [hcol]
    simp only [if_pos rfl]
    rw [hattrs]
    simp only [snapshotOf, he, if_true]
    by_cases hlen :
        0 < ((value_counts (df.rows.map fun r => pyStrip r.eventName)).take 10).length
    · rw [if_pos hlen]
      calc (((value_counts (df.rows.map fun r => pyStrip r.eventName)).take 10).take n).length
          ≤ ((value_counts (df.rows.map fun r => pyStrip r.eventName)).take 10).length :=
            List.length_take_le' _ _
        _ ≤ 10 := List.length_take_le _ _
    · rw [if_neg hlen]
      have h0 : ((value_counts (df.rows.map fun r => pyStrip r.eventName)).take 10) = [] :=
        List.length_eq_zero.mp (by omega)
      have hvc : value_counts (df.rows.map fun r => pyStrip r.eventName) = [] := by
        rcases List.take_eq_nil_iff.mp h0 with h | h
        · exact absurd h (by norm_num)
        · exact h
      have hnil : df.rows = [] := by
        have := value_counts_eq_nil.mp hvc
        exact List.map_eq_nil_iff.mp this
      have hcrows : c.rows = [] := by
        rcases hrows with ⟨-, hr⟩ | ⟨-, hr⟩ <;>
          simp [hr, hnil, dedupFirst, dedupFirstBy]
      simp [hcrows, value_counts, dedupFirst, dedupFirstBy, sortPairs]
  · rw [get_top_categories]
    have hcol : colStrings c "eventName" = none := by
      simp [colStrings, hsch]
      simpa using he
    rw [hcol]
    simp

/-- Claim C10, witness at `dfW` with `n = 30`. -/
theorem top_events_at_most_ten_witness :
    clean_event_data 0 dfW = Except.ok cleanW
    ∧ (get_top_categories cleanW "eventName" 30).length ≤ 10 :=
  ⟨rfl, top_events_at_most_ten 0 dfW cleanW rfl 30⟩

/-- A one-row frame whose only populated columns are `ID` and a
`ticketTypePrice` cell that failed numeric coercion (`none`). -/
def dfNullPrice : RawDF :=
  ⟨⟨true, false, false, true, false, false, false⟩,
   [⟨"p1", "", none, none, "", none, none⟩]⟩

/-- Claim C3, counterexample: the claim says a null/unparsable price
yields tier `Unknown`, but the pipeline fills nulls to 0 *before*
assigning tiers, so the row's tier is `Free`. -/
theorem price_tier_null_price_is_free :
    (clean_event_data 0 dfNullPrice).toOption.map (fun c => c.rows.map (·.price_tier))
      = some ["Free"]
    ∧ ("Free" : String) ≠ "Unknown" :=
  ⟨rfl, by decide⟩

/-- Claim C3 as amended: the pipeline's price tier satisfies the stated
buckets with inclusive upper bounds — 0 → Free, (0,400] → Budget,
(400,600] → Economy, (600,900] → Standard, (900,1200] → Premium,
above 1200 → VIP — but a null/unparsable price becomes `Free`, not
`Unknown`, because prices are zero-filled before `categorize_price`
is applied (only a direct call of `categorize_price` on a null can
return `Unknown`). -/
theorem price_tier_buckets :
    (∀ (today : Rat) (sch : Schema) (r : Row),
        (cleanRow today sch r).price_tier = pipe_price_tier r.ticketTypePrice)
    ∧ (pipe_price_tier none = "Free" ∧ categorize_price none = "Unknown")
    ∧ (∀ v : Rat,
        (v = 0 → pipe_price_tier (some v) = "Free")
        ∧ (0 < v → v ≤ 400 → pipe_price_tier (some v) = "Budget (≤400฿)")
        ∧ (400 < v → v ≤ 600 → pipe_price_tier (some v) = "Economy (401-600฿)")
        ∧ (600 < v → v ≤ 900 → pipe_price_tier (some v) = "Standard (601-900฿)")
        ∧ (900 < v → v ≤ 1200 → pipe_price_tier (some v) = "Premium (901-1200฿)")
        ∧ (1200 < v → pipe_price_tier (some v) = "VIP (>1200฿)")) := by
  refine ⟨fun _ _ _ => rfl, ⟨rfl, rfl⟩, ?_⟩
  intro v
  refine ⟨?_, ?_, ?_, ?_, ?_, ?_⟩ <;>
    · intros
      simp only [pipe_price_tier, Option.getD_some, categorize_price]
      split_ifs <;> first | rfl | linarith

/-- Claim C3 amended, witness at the boundary prices. -/
theorem price_tier_buckets_witness :
    pipe_price_tier (some 400) = "Budget (≤400฿)"
    ∧ pipe_price_tier (some 401) = "Economy (401-600฿)"
    ∧ pipe_price_tier (some 1200) = "Premium (901-1200฿)"
    ∧ pipe_price_tier (some 1201) = "VIP (>1200฿)" :=
  ⟨(price_tier_buckets.2.2 400).2.1 (by norm_num) (by norm_num),
   (price_tier_buckets.2.2 401).2.2.1 (by norm_num) (by norm_num),
   (price_tier_buckets.2.2 1200).2.2.2.2.1 (by norm_num) (by norm_num),
   (price_tier_buckets.2.2 1201).2.2.2.2.2 (by norm_num)⟩

/-- Every value of the gender dictionary is one of the three labels. -/
theorem lookup_mem_labels (m : List (String × String))
    (hm : ∀ p ∈ m, p.2 = "Male" ∨ p.2 = "Female" ∨ p.2 = "LGBTQ")
    (k : String) :
    ((List.lookup k m).getD "LGBTQ") = "Male"
    ∨ ((List.lookup k m).getD "LGBTQ") = "Female"
    ∨ ((List.lookup k m).getD "LGBTQ") = "LGBTQ" := by
  induction m with
  | nil => simp [List.lookup]
  | cons p ps ih =>
    rw [List.lookup]
    split
    · simpa using hm p (List.mem_cons_self _ _)
    · exact ih (fun q hq => hm q (List.mem_cons_of_mem _ hq))

/-- Claim C6: gender normalization lower-cases and trims its input and
maps it through the fixed dictionary onto exactly one of
{Male, Female, LGBTQ}; every input whose lower-cased, trimmed form is
absent from the dictionary yields exactly `LGBTQ` (including the
literal inputs `unknown` and `other`, which the dictionary itself sends
to `LGBTQ`), and `M`, `male` and `ชาย` yield exactly `Male`. -/
theorem gender_normalization_total :
    (∀ s : String, List.lookup (pyStrip (pyLower s)) gender_mapping = none →
        normalize_gender s = "LGBTQ")
    ∧ normalize_gender "unknown" = "LGBTQ"
    ∧ normalize_gender "other" = "LGBTQ"
    ∧ normalize_gender "M" = "Male"
    ∧ normalize_gender "male" = "Male"
    ∧ normalize_gender "ชาย" = "Male"
    ∧ ∀ s : String, normalize_gender s = "Male" ∨ normalize_gender s = "Female"
        ∨ normalize_gender s = "LGBTQ" := by
  refine ⟨?_, by decide, by decide, by decide, by decide, by decide, ?_⟩
  · intro s hs
    rw [normalize_gender, hs]
    rfl
  · intro s
    exact lookup_mem_labels gender_mapping (by decide) (pyStrip (pyLower s))

/-- Claim C6, witness: an input absent from the dictionary. -/
theorem gender_normalization_total_witness :
    normalize_gender "sleeveless" = "LGBTQ" :=
  gender_normalization_total.1 "sleeveless" (by decide)

/-- Claim C2 (code bug): the claim and the spec say the keyword fallback
sends `MARATHON` to `42.2K` only without a half/mini qualifier and any
`HALF` input to `21.1K`, but the source tests `'MARATHON' in
ticket_str` first with no qualifier guard, so a digitless
"Half Marathon" (and "Mini Marathon") evaluates to `42.2K`; the `HALF`
branches behind it are unreachable. -/
theorem half_marathon_fallback_value :
    extract_distance (some "Half Marathon") = "42.2K"
    ∧ extract_distance (some "Mini Marathon") = "42.2K"
    ∧ ("42.2K" : String) ≠ "21.1K" :=
  ⟨by decide, by decide, by decide⟩

/-- A one-row frame with an `ID` and a `ticketTypeName` column but no
`eventName` column. -/
def dfTicketOnly : RawDF :=
  ⟨⟨true, false, true, false, false, false, false⟩,
   [⟨"p1", "", some "5K", none, "", none, none⟩]⟩

/-- Claim C7 (code bug): the pipeline itself degrades gracefully on
this input, but `calculate_kpis` then raises — its
`top_distance_category` line reads the local `top_category`, which is
assigned only when `event_category` exists, so a frame with a
ticket-type column and no event-name column produces a `NameError`
instead of a KPI mapping. -/
theorem kpis_error_without_event_column :
    (clean_event_data 0 dfTicketOnly).toOption.map calculate_kpis
      = some (.error "NameError: name 'top_category' is not defined") :=
  rfl

/-! ### Structure of the regex scan (towards claim C9) -/

theorem scanDigits_fst_digits :
    ∀ (l : List Char), ∀ c ∈ (scanDigits l).1, isDig c = true := by
  intro l
  induction l with
  | nil => simp [scanDigits]
  | cons a as ih =>
    rw [scanDigits]
    split
    · rename_i ha
      intro c hc
      rcases List.mem_cons.mp hc with hc | hc
      · exact hc ▸ ha
      · exact ih c hc
    · simp

theorem scanDigits_append (ds r : List Char)
    (hd : ∀ c ∈ ds, isDig c = true)
    (hr : ∀ c cs, r = c :: cs → isDig c = false) :
    scanDigits (ds ++ r) = (ds, r) := by
  induction ds with
  | nil =>
    cases hrr : r with
    | nil => simp [scanDigits]
    | cons c cs =>
      simp only [List.nil_append, hrr, scanDigits, hr c cs hrr]
      simp
  | cons a as ih =>
    have ha : isDig a = true := hd a (List.mem_cons_self _ _)
    rw [List.cons_append, scanDigits, if_pos ha,
      ih (fun c hc => hd c (List.mem_cons_of_mem _ hc))]

theorem tryNumK_shape {cs : List Char} {ip fp : List Char}
    (h : tryNumK cs = some (ip, fp)) :
    ip ≠ [] ∧ (∀ c ∈ ip, isDig c = true) ∧ (∀ c ∈ fp, isDig c = true) := by
  rw [tryNumK] at h
  split_ifs at h with h1 h2
  injection h with h'
  injection h' with hip hfp
  subst hip; subst hfp
  exact ⟨h1, scanDigits_fst_digits _, scanDigits_fst_digits _⟩

theorem findNumK_shape :
    ∀ (cs : List Char) {ip fp : List Char},
      findNumK cs = some (ip, fp) →
        ip ≠ [] ∧ (∀ c ∈ ip, isDig c = true) ∧ (∀ c ∈ fp, isDig c = true) := by
  intro cs
  induction cs with
  | nil => intro ip fp h; simp [findNumK] at h
  | cons a as ih =>
    intro ip fp h
    rw [findNumK] at h
    cases htry : tryNumK (a :: as) with
    | some r =>
      rw [htry] at h
      injection h with h'
      subst h'
      exact tryNumK_shape htry
    | none =>
      rw [htry] at h
      exact ih h

theorem findNumK_of_head {cs : List Char} {r : List Char × List Char}
    (hne : cs ≠ []) (h : tryNumK cs = some r) : findNumK cs = some r := by
  cases cs with
  | nil => exact absurd rfl hne
  | cons a as => rw [findNumK, h]

/-! ### Canonical digit strings and the zero-stripping operations -/

theorem head_dropWhile {p : Char → Bool} :
    ∀ (l : List Char) {c : Char} {cs : List Char},
      l.dropWhile p = c :: cs → p c = false := by
  intro l
  induction l with
  | nil => intro c cs h; simp [List.dropWhile] at h
  | cons a as ih =>
    intro c cs h
    rw [List.dropWhile_cons] at h
    split at h
    · exact ih h
    · rename_i hpa
      injection h with h1 _
      subst h1
      exact Bool.eq_false_iff.mpr hpa

theorem dropWhile_dropWhile {p : Char → Bool} (l : List Char) :
    (l.dropWhile p).dropWhile p = l.dropWhile p := by
  cases h : l.dropWhile p with
  | nil => rfl
  | cons c cs => rw [List.dropWhile_cons, head_dropWhile l h]; simp

theorem stripZerosL_idem (l : List Char) :
    stripZerosL (stripZerosL l) = stripZerosL l := by
  cases h : l.dropWhile (· == '0') with
  | nil =>
    have h0 : stripZerosL l = ['0'] := by rw [stripZerosL, h]
    rw [h0]; decide
  | cons c cs =>
    have h1 : stripZerosL l = c :: cs := by rw [stripZerosL, h]
    have hc := head_dropWhile l h
    rw [h1, stripZerosL, List.dropWhile_cons]
    simp [hc]

theorem stripZerosL_ne_nil (l : List Char) : stripZerosL l ≠ [] := by
  cases h : l.dropWhile (· == '0') with
  | nil => rw [stripZerosL, h]; simp
  | cons c cs => rw [stripZerosL, h]; simp

theorem stripZerosL_digits {l : List Char} (h : ∀ c ∈ l, isDig c = true) :
    ∀ c ∈ stripZerosL l, isDig c = true := by
  intro c hc
  cases hd : l.dropWhile (· == '0') with
  | nil =>
    rw [stripZerosL, hd] at hc
    have : c = '0' := by simpa using hc
    rw [this]; decide
  | cons a as =>
    rw [stripZerosL, hd] at hc
    exact h c ((List.dropWhile_sublist _).subset
      (show c ∈ l.dropWhile (· == '0') by rw [hd]; exact hc))

theorem stripZerosR_idem (l : List Char) :
    stripZerosR (stripZerosR l) = stripZerosR l := by
  rw [stripZerosR, stripZerosR, List.reverse_reverse, dropWhile_dropWhile]

theorem stripZerosR_digits {l : List Char} (h : ∀ c ∈ l, isDig c = true) :
    ∀ c ∈ stripZerosR l, isDig c = true := by
  intro c hc
  rw [stripZerosR, List.mem_reverse] at hc
  exact h c (List.mem_reverse.mp ((List.dropWhile_sublist _).subset hc))

/-- A list decomposes into its trailing-zero-stripped part and zeros. -/
theorem stripZerosR_decomp (l : List Char) :
    ∃ z, l = stripZerosR l ++ z ∧ ∀ c ∈ z, (c == '0') = true := by
  refine ⟨(l.reverse.takeWhile (· == '0')).reverse, ?_, ?_⟩
  · conv_lhs => rw [← l.reverse_reverse,
      ← List.takeWhile_append_dropWhile (p := (· == '0')) (l := l.reverse)]
    rw [List.reverse_append, stripZerosR]
  · intro c hc
    rw [List.mem_reverse] at hc
    have hp := List.mem_takeWhile_imp hc
    exact hp

theorem stripZerosR_not_all {l : List Char} (h : l.all (· == '0') = false) :
    (stripZerosR l).all (· == '0') = false := by
  obtain ⟨z, hz, hzall⟩ := stripZerosR_decomp l
  by_contra hall
  rw [Bool.not_eq_false] at hall
  rw [List.all_eq_false] at h
  obtain ⟨c, hc, hc0⟩ := h
  rw [hz, List.mem_append] at hc
  rcases hc with hc | hc
  · exact hc0 (List.all_eq_true.mp hall c hc)
  · exact hc0 (hzall c hc)

/-! ### Upper-casing is the identity on formatted output characters -/

theorem pyUpperChar_digit {c : Char} (h : isDig c = true) :
    pyUpperChar c = c := by
  rw [pyUpperChar, if_neg]
  rintro ⟨ha, -⟩
  rw [isDig, Bool.and_eq_true, decide_eq_true_eq, decide_eq_true_eq] at h
  exact absurd (lt_of_le_of_lt h.2 (by decide)) (not_lt.mpr ha)

theorem pyUpper_fixes {l : List Char} (h : ∀ c ∈ l, pyUpperChar c = c) :
    pyUpper ⟨l⟩ = ⟨l⟩ := by
  show (⟨l.map pyUpperChar⟩ : String) = ⟨l⟩
  rw [List.map_congr_left h, List.map_id']

/-! ### Re-scanning a formatted output reproduces its digit runs -/

theorem tryNumK_canonical_int {x : List Char}
    (hx : x ≠ []) (hd : ∀ c ∈ x, isDig c = true) :
    tryNumK (x ++ ['K']) = some (x, []) := by
  have hscan : scanDigits (x ++ ['K']) = (x, ['K']) :=
    scanDigits_append x ['K'] hd (by
      intro c cs h
      injection h with h1 _
      subst h1; decide)
  rw [tryNumK, hscan]
  simp only [if_neg hx]
  rfl

theorem tryNumK_canonical_frac {x y : List Char}
    (hx : x ≠ []) (hdx : ∀ c ∈ x, isDig c = true)
    (hdy : ∀ c ∈ y, isDig c = true) :
    tryNumK (x ++ ('.' :: (y ++ ['K']))) = some (x, y) := by
  have hscan1 : scanDigits (x ++ ('.' :: (y ++ ['K']))) = (x, '.' :: (y ++ ['K'])) :=
    scanDigits_append x ('.' :: (y ++ ['K'])) hdx (by
      intro c cs h
      injection h with h1 _
      subst h1; decide)
  have hscan2 : scanDigits (y ++ ['K']) = (y, ['K']) :=
    scanDigits_append y ['K'] hdy (by
      intro c cs h
      injection h with h1 _
      subst h1; decide)
  have hdot : dotSplit ((x, '.' :: (y ++ ['K'])).2) = y ++ ['K'] := rfl
  rw [tryNumK, hscan1, hdot, hscan2, if_neg hx]
  rfl

theorem extract_distance_mk_int {x : List Char}
    (hx : x ≠ []) (hd : ∀ c ∈ x, isDig c = true)
    (hfix : stripZerosL x = x) :
    extract_distance (some ⟨x ++ ['K']⟩) = ⟨x ++ ['K']⟩ := by
  have hupper : pyUpper ⟨x ++ ['K']⟩ = ⟨x ++ ['K']⟩ := by
    apply pyUpper_fixes
    intro c hc
    rcases List.mem_append.mp hc with hc | hc
    · exact pyUpperChar_digit (hd c hc)
    · rw [List.mem_singleton.mp hc]; decide
  have hfind : findNumK ((⟨x ++ ['K']⟩ : String).data) = some (x, []) :=
    findNumK_of_head (by simp [hx]) (tryNumK_canonical_int hx hd)
  rw [extract_distance, hupper, hfind]
  show (⟨formatNumL x []⟩ : String) = ⟨x ++ ['K']⟩
  rw [formatNumL, if_pos (by simp), hfix]

theorem extract_distance_mk_frac {x y : List Char}
    (hx : x ≠ []) (hdx : ∀ c ∈ x, isDig c = true)
    (hdy : ∀ c ∈ y, isDig c = true)
    (hfixx : stripZerosL x = x) (hfixy : stripZerosR y = y)
    (hnz : y.all (· == '0') = false)
    (hnsci : ¬(x = ['0'] ∧ 4 ≤ zCount y)) :
    extract_distance (some ⟨x ++ ('.' :: (y ++ ['K']))⟩)
      = ⟨x ++ ('.' :: (y ++ ['K']))⟩ := by
  have hupper : pyUpper ⟨x ++ ('.' :: (y ++ ['K']))⟩ = ⟨x ++ ('.' :: (y ++ ['K']))⟩ := by
    apply pyUpper_fixes
    intro c hc
    rcases List.mem_append.mp hc with hc | hc
    · exact pyUpperChar_digit (hdx c hc)
    · rcases List.mem_cons.mp hc with hc | hc
      · rw [hc]; decide
      · rcases List.mem_append.mp hc with hc | hc
        · exact pyUpperChar_digit (hdy c hc)
        · rw [List.mem_singleton.mp hc]; decide
  have hfind : findNumK ((⟨x ++ ('.' :: (y ++ ['K']))⟩ : String).data) = some (x, y) :=
    findNumK_of_head (by simp [hx]) (tryNumK_canonical_frac hx hdx hdy)
  rw [extract_distance, hupper, hfind]
  show (⟨formatNumL x y⟩ : String) = ⟨x ++ ('.' :: (y ++ ['K']))⟩
  rw [formatNumL, if_neg (by simp [hnz]), hfixx, hfixy, if_neg hnsci]

/-! ### The keyword fallback only produces fixed literals -/

theorem keywordFallback_cases (u : String) :
    keywordFallback u = "42.2K" ∨ keywordFallback u = "21.1K"
    ∨ keywordFallback u = "24K" ∨ keywordFallback u = "10K"
    ∨ keywordFallback u = "5K" ∨ keywordFallback u = "3K"
    ∨ keywordFallback u = "Other" := by
  rw [keywordFallback]
  split_ifs <;> simp

/-- `'e'` occurs in every scientific-notation output. -/
theorem mem_e_sciL (fp : List Char) : 'e' ∈ sciL fp := by
  rw [sciL]
  simp

/-- Claim C9, counterexample: `extract_distance` is not idempotent on
its output domain.  `extract_distance("0.00001K")` is `"1e-05K"`
(CPython renders `str(1e-05)` in scientific notation), and re-applying
the function re-parses the exponent digits `05` and returns `"5K"`,
which is neither the previous output nor `"Other"`. -/
theorem extract_distance_sci_counterexample :
    extract_distance (some (extract_distance (some "0.00001K")))
        ≠ extract_distance (some "0.00001K")
    ∧ extract_distance (some (extract_distance (some "0.00001K"))) ≠ "Other"
    ∧ extract_distance (some "0.00001K") = "1e-05K"
    ∧ extract_distance (some "1e-05K") = "5K" :=
  ⟨by decide, by decide, by decide, by decide⟩

/-- Claim C9 as amended: `extract_distance` is idempotent on every
output not rendered in scientific notation: whenever
`extract_distance s` is `Other` or contains no `'e'` (the scientific
marker appears only when the extracted value is below `1e-4`),
re-applying the function returns the same string or `Other`. -/
theorem extract_distance_idem_plain (s : Option String)
    (h : extract_distance s = "Other" ∨ 'e' ∉ (extract_distance s).data) :
    extract_distance (some (extract_distance s)) = extract_distance s
    ∨ extract_distance (some (extract_distance s)) = "Other" := by
  by_cases hO : extract_distance s = "Other"
  · rw [hO]; left; decide
  · have he : 'e' ∉ (extract_distance s).data := h.resolve_left hO
    cases s with
    | none => exact absurd rfl hO
    | some str =>
      cases hm : findNumK (pyUpper str).data with
      | none =>
        have hv : extract_distance (some str) = keywordFallback (pyUpper str) := by
          simp only [extract_distance]
          rw [hm]
        rcases keywordFallback_cases (pyUpper str) with h1|h1|h1|h1|h1|h1|h1
        · rw [hv, h1]; decide
        · rw [hv, h1]; decide
        · rw [hv, h1]; decide
        · rw [hv, h1]; decide
        · rw [hv, h1]; decide
        · rw [hv, h1]; decide
        · exact absurd (hv.trans h1) hO
      | some pr =>
        obtain ⟨ip, fp⟩ := pr
        have hv : extract_distance (some str) = ⟨formatNumL ip fp⟩ := by
          simp only [extract_distance]
          rw [hm]
        obtain ⟨hne, hipd, hfpd⟩ := findNumK_shape _ hm
        by_cases hz : fp.all (· == '0') = true
        · have hfl : formatNumL ip fp = stripZerosL ip ++ ['K'] := by
            rw [formatNumL, if_pos hz]
          rw [hv, hfl]
          left
          exact extract_distance_mk_int (stripZerosL_ne_nil ip)
            (stripZerosL_digits hipd) (stripZerosL_idem ip)
        · have hz' : fp.all (· == '0') = false := Bool.eq_false_iff.mpr hz
          by_cases hs : stripZerosL ip = ['0'] ∧ 4 ≤ zCount (stripZerosR fp)
          · exfalso
            apply he
            rw [hv]
            show 'e' ∈ formatNumL ip fp
            rw [formatNumL, if_neg hz, if_pos hs]
            exact List.mem_append.mpr (Or.inl (mem_e_sciL _))
          · have hfl : formatNumL ip fp
                = stripZerosL ip ++ ('.' :: (stripZerosR fp ++ ['K'])) := by
              rw [formatNumL, if_neg hz, if_neg hs]
            rw [hv, hfl]
            left
            exact extract_distance_mk_frac (stripZerosL_ne_nil ip)
              (stripZerosL_digits hipd) (stripZerosR_digits hfpd)
              (stripZerosL_idem ip) (stripZerosR_idem fp)
              (stripZerosR_not_all hz') hs

/-- Claim C9 amended, witness: a plain (non-scientific) output. -/
theorem extract_distance_idem_plain_witness :
    extract_distance (some (extract_distance (some "Run 21.1 km")))
        = extract_distance (some "Run 21.1 km")
    ∨ extract_distance (some (extract_distance (some "Run 21.1 km"))) = "Other" :=
  extract_distance_idem_plain (some "Run 21.1 km") (Or.inr (by decide))

end ThaiDash
